import Mathlib

/-!
# Verification of the pyscan scan motion-and-synchronization engine

Shallow embedding of the core of the `pyscan` repository:

* `pyscan/positioner.py` — the position-sequence generator family
  (`LinearPositioner`, `ZigZagLinearPositioner`, `AreaPositioner`,
  `ZigZagAreaPositioner`, `MultiAreaPositioner`, `VectorPositioner`,
  `ZigZagVectorPositioner`);
* `pyscan/utils.py` — `EpicsWriter.write`, the actuator write/convergence loop;
* `pyscan/dal/bsread_dal.py` — `ReadGroupInterface`, the synchronized reader.

Python floats are embedded as `ℚ`; Python generators are embedded as pure
functions producing `List`s (each `get_generator()` call in Python builds a
fresh generator whose state is local to that generator, so one traversal is
exactly one evaluation of the pure function).  Wall-clock-bounded `while`
loops are embedded with an explicit fuel argument counting the number of loop
iterations that start before the deadline expires.  A Python read that can
yield "no value" (`None`) is an `Option`.
-/

/-- Apply a function `n` times, mirroring a Python `for _ in range(n)` loop
whose body updates the loop-carried state. -/
def loopN (f : α → α) : ℕ → α → α
  | 0, a => a
  | n + 1, a => loopN f n (f a)

/-- Three-list `zipWith`, mirroring Python `zip(xs, ys, zs)` comprehensions
(truncating at the shortest list). -/
def zip3With (f : α → β → γ → δ) : List α → List β → List γ → List δ
  | a :: as, b :: bs, c :: cs => f a b c :: zip3With f as bs cs
  | _, _, _ => []

theorem loopN_succ (f : α → α) (n : ℕ) (a : α) :
    loopN f (n + 1) a = loopN f n (f a) := rfl

theorem loopN_inv (f : α → α) (P : α → Prop) (hf : ∀ a, P a → P (f a)) :
    ∀ (n : ℕ) (a : α), P a → P (loopN f n a) := by
  intro n
  induction n with
  | zero => intro a h; exact h
  | succ n ih => intro a h; exact ih (f a) (hf a h)

theorem getD_set_self (l : List α) (i : ℕ) (v d : α) (h : i < l.length) :
    (l.set i v).getD i d = v := by
  induction l generalizing i with
  | nil => simp at h
  | cons x xs ih =>
    cases i with
    | zero => rfl
    | succ i => simpa [List.set, List.getD] using ih i (by simpa using h)

theorem getD_set_ne (l : List α) (i j : ℕ) (v d : α) (h : j ≠ i) :
    (l.set i v).getD j d = l.getD j d := by
  induction l generalizing i j with
  | nil => simp [List.set]
  | cons x xs ih =>
    cases i with
    | zero =>
      cases j with
      | zero => exact absurd rfl h
      | succ j => rfl
    | succ i =>
      cases j with
      | zero => rfl
      | succ j => simpa [List.set, List.getD] using ih i j (by omega)

/-! ## Step-specification tag

`positioner.py` dispatches on `isinstance(steps[0], int)` /
`isinstance(steps[0], float)`: a run-time tag on the step specification.
`Steps.other` is any first element that is neither an `int` nor a `float`
(the code's final `else` branch, whose body is `pass` with a
`TODO: Raise an exception.` comment). -/
inductive Steps where
  | count : List ℤ → Steps
  | size : List ℚ → Steps
  | other : Steps
deriving DecidableEq

/-- The `if self.offsets:` fixup shared by the positioner constructors:
`[offset + original_value for original_value, offset in zip(xs, offsets)]`.
A `None` or empty offsets list is falsy in Python, leaving `xs` unchanged. -/
def applyOffsets (xs : List ℚ) (offsets : Option (List ℚ)) : List ℚ :=
  match offsets with
  | none => xs
  | some [] => xs
  | some off => List.zipWith (fun x o => o + x) xs off

/-! ## LinearPositioner -/

/-- The state `LinearPositioner.__init__` leaves on the object.  The Python
constructor never raises: in the untagged (`else`) branch it simply does not
assign `n_steps`/`step_size`, which is modelled by those fields being `none`
(reading an unassigned attribute later raises `AttributeError` in Python). -/
structure LinearP where
  start : List ℚ
  end_ : List ℚ
  passes : ℕ
  n_steps : Option ℤ
  step_size : Option (List ℚ)
deriving DecidableEq

/-- `LinearPositioner.__init__(start, end, steps, passes, offsets)`.
In the step-size (`float`) branch the source computes
`math.floor((end[0] - start[0]) / steps[0])` from the *parameters*
`start`/`end` (pre-offset), which is mirrored here. -/
def LinearPositioner.init (start end_ : List ℚ) (steps : Steps) (passes : ℕ)
    (offsets : Option (List ℚ)) : LinearP :=
  let s := applyOffsets start offsets
  let e := applyOffsets end_ offsets
  match steps with
  | .count l =>
    { start := s, end_ := e, passes := passes,
      n_steps := some (l.headD 0),
      step_size := some (zip3With (fun st en k => (en - st) / (k : ℚ)) s e l) }
  | .size l =>
    { start := s, end_ := e, passes := passes,
      n_steps := some ⌊(end_.headD 0 - start.headD 0) / l.headD 0⌋,
      step_size := some l }
  | .other =>
    { start := s, end_ := e, passes := passes,
      n_steps := none, step_size := none }

/-- The inner `for __ in range(self.n_steps)` loop of
`LinearPositioner.get_generator`: each iteration adds `step_size` per axis to
the current position and yields the result. -/
def linSteps (ss : List ℚ) : ℕ → List ℚ → List (List ℚ)
  | 0, _ => []
  | k + 1, pos =>
    let p := List.zipWith (fun position step_size => position + step_size) pos ss
    p :: linSteps ss k p

/-- `LinearPositioner.get_generator` over resolved parameters: one pass per
`passes`, each pass re-starting from `start` and yielding `start` followed by
`n_steps` stepped positions. -/
def LinearPositioner.gen (start ss : List ℚ) (n : ℕ) : ℕ → List (List ℚ)
  | 0 => []
  | p + 1 => (start :: linSteps ss n start) ++ LinearPositioner.gen start ss n p

/-- `LinearPositioner.get_generator` on the constructed object: Python raises
`AttributeError` if `n_steps`/`step_size` were never assigned, modelled as
`none`.  A negative `n_steps` makes `range(n_steps)` empty, hence `toNat`. -/
def LinearPositioner.get_generator (P : LinearP) : Option (List (List ℚ)) :=
  match P.n_steps, P.step_size with
  | some n, some ss => some (LinearPositioner.gen P.start ss n.toNat P.passes)
  | _, _ => none

/-! ## ZigZagLinearPositioner -/

/-- The inner loop of `ZigZagLinearPositioner.get_generator`:
`position + step_size * direction` per axis, yielding each new position. -/
def zzlSteps (ss : List ℚ) (direction : ℚ) : ℕ → List ℚ → List (List ℚ)
  | 0, _ => []
  | k + 1, pos =>
    let p := List.zipWith (fun position step_size => position + step_size * direction) pos ss
    p :: zzlSteps ss direction k p

/-- The pass loop of `ZigZagLinearPositioner.get_generator`: pass number `pn`
chooses direction `+1` when even, `-1` when odd, and the current position is
carried from pass to pass (never re-set to `start`). -/
def ZigZagLinearPositioner.go (ss : List ℚ) (n : ℕ) : ℕ → ℕ → List ℚ → List (List ℚ)
  | _, 0, _ => []
  | pn, r + 1, pos =>
    let direction : ℚ := if pn % 2 = 0 then 1 else -1
    let block := zzlSteps ss direction n pos
    block ++ ZigZagLinearPositioner.go ss n (pn + 1) r (block.getLastD pos)

/-- `ZigZagLinearPositioner.get_generator` over resolved parameters: the start
position is yielded once, before the pass loop. -/
def ZigZagLinearPositioner.gen (start ss : List ℚ) (n p : ℕ) : List (List ℚ) :=
  start :: ZigZagLinearPositioner.go ss n 0 p start

/-- `ZigZagLinearPositioner.get_generator` on the constructed object
(the constructor is inherited from `LinearPositioner`). -/
def ZigZagLinearPositioner.get_generator (P : LinearP) : Option (List (List ℚ)) :=
  match P.n_steps, P.step_size with
  | some n, some ss => some (ZigZagLinearPositioner.gen P.start ss n.toNat P.passes)
  | _, _ => none

/-! ## AreaPositioner constructor -/

/-- The state `AreaPositioner.__init__` leaves on the object; as for
`LinearP`, the untagged `else` branch assigns neither `n_steps` nor
`step_size` (and raises nothing). -/
structure AreaP where
  start : List ℚ
  end_ : List ℚ
  n_axis : ℕ
  passes : ℕ
  n_steps : Option (List ℤ)
  step_size : Option (List ℚ)
deriving DecidableEq

/-- `AreaPositioner.__init__(start, end, steps, passes, offsets)`.
`self.n_axis = len(self.start)` is computed before the offsets fixup. -/
def AreaPositioner.init (start end_ : List ℚ) (steps : Steps) (passes : ℕ)
    (offsets : Option (List ℚ)) : AreaP :=
  let n_axis := start.length
  let s := applyOffsets start offsets
  let e := applyOffsets end_ offsets
  match steps with
  | .count l =>
    { start := s, end_ := e, n_axis := n_axis, passes := passes,
      n_steps := some l,
      step_size := some (zip3With (fun st en k => (en - st) / (k : ℚ)) s e l) }
  | .size l =>
    { start := s, end_ := e, n_axis := n_axis, passes := passes,
      n_steps := some (zip3With (fun st en sz => ⌊(en - st) / sz⌋) s e l),
      step_size := some l }
  | .other =>
    { start := s, end_ := e, n_axis := n_axis, passes := passes,
      n_steps := none, step_size := none }

/-! ## VectorPositioner and ZigZagVectorPositioner -/

/-- `VectorPositioner.get_generator`: the explicit waypoint list repeated
`passes` times, each repetition identical. -/
def VectorPositioner.gen (positions : List (List ℚ)) : ℕ → List (List ℚ)
  | 0 => []
  | p + 1 => positions ++ VectorPositioner.gen positions p

/-- The base period of `cycle(chain(range(0, n, 1), range(n-2, 0, -1)))` in
`ZigZagVectorPositioner.get_generator`: the index list `[0, …, n-1, n-2, …, 1]`. -/
def zzIndexes (n : ℕ) : List ℕ :=
  List.range n ++ (List.range (n - 1)).tail.reverse

/-- `n_indexes = self.n_positions + ((self.passes-1) * (self.n_positions - 1))`
computed in Python `int` arithmetic (a negative result makes `range` empty,
hence the computation in `ℤ` followed by `toNat`). -/
def ZigZagVectorPositioner.nIndexes (n p : ℕ) : ℕ :=
  ((n : ℤ) + ((p : ℤ) - 1) * ((n : ℤ) - 1)).toNat

/-- `ZigZagVectorPositioner.get_generator`: take `n_indexes` items from the
cyclic ping-pong index stream and look each waypoint up. -/
def ZigZagVectorPositioner.gen (positions : List (List ℚ)) (p : ℕ) : List (List ℚ) :=
  let n := positions.length
  let base := zzIndexes n
  (List.range (ZigZagVectorPositioner.nIndexes n p)).map
    (fun k => positions.getD (base.getD (k % base.length) 0) [])

/-! ## AreaPositioner and MultiAreaPositioner

The Python implementation is a recursive generator `scan_axis(axis_number)`
closing over a shared mutable `positions` list: it guards
`if not axis_number < self.n_axis: return`, first recurses into the next
axis, then runs `for _ in range(self.n_steps[axis_number])` — each iteration
stepping `positions[axis_number]`, yielding a copy, and recursing into the
next axis — and finally resets `positions[axis_number]` to the start value.
The embedding makes the shared state explicit: the scanner maps a state to
(emitted positions, final state).  The recursion is bounded by
`fuel = n_axis - axis_number`, so `fuel = 0` is exactly the guard's `return`;
top-level calls use `fuel = n_axis`, `axis = 0`. -/

/-- Generic odometer scanner shared by `AreaPositioner.get_generator` and
`MultiAreaPositioner.get_generator` (which differ only in the per-axis element
type and step arithmetic): `advance axis v` is the loop-body step of
`positions[axis]`, `resetTo axis` the start value restored after the loop, and
`nst axis` the iteration count `self.n_steps[axis]` (for `MultiAreaPositioner`
only the first element of the per-axis step-count vector, as in the source). -/
def areaScanAxis {α : Type} (advance : ℕ → α → α) (resetTo : ℕ → α) (nst : ℕ → ℕ) :
    ℕ → ℕ → List α → (List (List α) × List α)
  | 0, _, pos => ([], pos)
  | f + 1, axis, pos =>
    let r0 := areaScanAxis advance resetTo nst f (axis + 1) pos
    let body : (List (List α) × List α) → (List (List α) × List α) := fun st =>
      let p := st.2.set axis (advance axis (st.2.getD axis (resetTo axis)))
      let r1 := areaScanAxis advance resetTo nst f (axis + 1) p
      (st.1 ++ (p :: r1.1), r1.2)
    let rL := loopN body (nst axis) r0
    (rL.1, rL.2.set axis (resetTo axis))

/-- One pass of `AreaPositioner.get_generator`: `positions = copy(self.start)`,
yield the initial state, then `scan_axis(0)`. -/
def AreaPositioner.onePass (start : List ℚ) (nst : List ℕ) (ss : List ℚ) : List (List ℚ) :=
  start :: (areaScanAxis (fun a v => v + ss.getD a 0) (fun a => start.getD a 0)
    (fun a => nst.getD a 0) start.length 0 start).1

/-- `AreaPositioner.get_generator`: each pass restarts from `start`. -/
def AreaPositioner.gen (start : List ℚ) (nst : List ℕ) (ss : List ℚ) : ℕ → List (List ℚ)
  | 0 => []
  | p + 1 => AreaPositioner.onePass start nst ss ++ AreaPositioner.gen start nst ss p

/-- One pass of `MultiAreaPositioner.get_generator`: each per-axis position is
itself a vector, stepped component-wise; only `self.n_steps[axis][0]` bounds
the loop (the source's `TODO: Figure out what to do with this steps`). -/
def MultiAreaPositioner.onePass (start : List (List ℚ)) (nst : List (List ℕ))
    (ss : List (List ℚ)) : List (List (List ℚ)) :=
  start :: (areaScanAxis
    (fun a v => List.zipWith (fun position step_size => position + step_size) v (ss.getD a []))
    (fun a => start.getD a []) (fun a => (nst.getD a []).headD 0) start.length 0 start).1

/-- `MultiAreaPositioner.get_generator`: each pass restarts from `start`. -/
def MultiAreaPositioner.gen (start : List (List ℚ)) (nst : List (List ℕ))
    (ss : List (List ℚ)) : ℕ → List (List (List ℚ))
  | 0 => []
  | p + 1 => MultiAreaPositioner.onePass start nst ss ++ MultiAreaPositioner.gen start nst ss p

/-! ## ZigZagAreaPositioner

Same odometer structure, but with a per-axis `directions` list: the loop body
steps by `step_size[axis] * directions[axis]`, and after the loop completes
the code runs `directions[axis_number] *= -1` (and does *not* reset
`positions[axis_number]`).  Crucially, in the source both
`directions = [1] * self.n_axis` and `positions = copy(self.start)` are
(re)bound *inside* the `for pass_number in range(self.passes)` loop. -/

/-- One iteration of the `for _ in range(self.n_steps[axis_number])` loop in
`ZigZagAreaPositioner.get_generator`: step `positions[axis]` by
`step_size[axis] * directions[axis]`, yield a copy, and recurse into the next
axis (`inner` is the `scan_axis(axis_number + 1)` call).  The state is
(emitted positions so far, positions, directions). -/
def zzStep (ss : List ℚ) (axis : ℕ)
    (inner : List ℚ → List ℤ → (List (List ℚ) × List ℚ × List ℤ)) :
    (List (List ℚ) × List ℚ × List ℤ) → (List (List ℚ) × List ℚ × List ℤ) :=
  fun st =>
    let p := st.2.1.set axis
      (st.2.1.getD axis 0 + ss.getD axis 0 * ((st.2.2.getD axis 1 : ℤ) : ℚ))
    let r1 := inner p st.2.2
    (st.1 ++ (p :: r1.1), r1.2)

/-- The embedded `scan_axis` of `ZigZagAreaPositioner.get_generator`, with the
shared `positions`/`directions` state explicit: first the recursive call into
the next axis, then the stepping loop, and finally
`directions[axis_number] *= -1`.  Returns
(emitted positions, final positions, final directions). -/
def zzScanAxis (nst : List ℕ) (ss : List ℚ) :
    ℕ → ℕ → List ℚ → List ℤ → (List (List ℚ) × List ℚ × List ℤ)
  | 0, _, pos, dir => ([], pos, dir)
  | f + 1, axis, pos, dir =>
    let r0 := zzScanAxis nst ss f (axis + 1) pos dir
    let rL := loopN (zzStep ss axis (zzScanAxis nst ss f (axis + 1))) (nst.getD axis 0) r0
    (rL.1, rL.2.1, rL.2.2.set axis (rL.2.2.getD axis 1 * -1))

/-- One pass of `ZigZagAreaPositioner.get_generator`, exactly as the pass loop
body runs it: directions re-initialised to `[1] * n_axis` and positions to
`copy(self.start)`, the initial state yielded, then `scan_axis(0)`.  Returns
(emitted positions, final positions, final directions). -/
def ZigZagAreaPositioner.onePass (start : List ℚ) (nst : List ℕ) (ss : List ℚ) :
    List (List ℚ) × List ℚ × List ℤ :=
  let r := zzScanAxis nst ss start.length 0 start (List.replicate start.length 1)
  (start :: r.1, r.2)

/-- `ZigZagAreaPositioner.get_generator`: the pass loop. -/
def ZigZagAreaPositioner.gen (start : List ℚ) (nst : List ℕ) (ss : List ℚ) :
    ℕ → List (List ℚ)
  | 0 => []
  | p + 1 => (ZigZagAreaPositioner.onePass start nst ss).1
      ++ ZigZagAreaPositioner.gen start nst ss p

/-- Modelled from the spec (for comparison with the source embedding
`ZigZagAreaPositioner.gen`): the variant in which each axis's direction flag
"persists across passes (not reset per pass)" — the final directions of one
pass are handed to the next pass, while each pass still restarts `positions`
from `start`. -/
def zzAreaPersistAux (start : List ℚ) (nst : List ℕ) (ss : List ℚ) :
    ℕ → List ℤ → List (List ℚ)
  | 0, _ => []
  | p + 1, dir =>
    let r := zzScanAxis nst ss start.length 0 start dir
    (start :: r.1) ++ zzAreaPersistAux start nst ss p r.2.2

/-- Modelled from the spec: `ZigZagAreaPositioner` traversal with direction
state persisting across passes (the claim's reading), starting all-forward. -/
def ZigZagAreaPositioner.genSpecPersist (start : List ℚ) (nst : List ℕ) (ss : List ℚ)
    (p : ℕ) : List (List ℚ) :=
  zzAreaPersistAux start nst ss p (List.replicate start.length 1)

/-! ## EpicsWriter (the ActuatorWriter)

`EpicsWriter.write` puts every target once, then polls.  A channel is embedded
as its sequence of `pv.get()` results (`reads : ℕ → Option ℚ`, `none` being a
`None` return); each `pv.get()` call consumes the next element, so per channel
a read cursor is threaded.  The wall-clock guard
`time.time() - initial_timestamp < timeout` is embedded as `fuel`, the number
of polling cycles that start before the timeout elapses. -/

/-- `TypeError` aborts the call (Python: `pv.get() - values[index]` with a
`None` left operand); `convergenceTimeout` is the final
`ValueError("Cannot achieve position in specified time.")`. -/
inductive WriteError where
  | typeError : WriteError
  | convergenceTimeout : WriteError
deriving DecidableEq

/-- The body of the polling loop for one unconverged channel, starting at read
cursor `k`:
`current_value = pv.get()` — if the result is falsy (`None` *or* exactly `0`)
the channel is skipped this cycle (`continue`); otherwise the code calls
`pv.get()` a *second* time and compares `abs(pv.get() - values[index])` with
the tolerance — a `None` second read makes that subtraction a `TypeError`.
Returns the new converged flag and cursor. -/
def pollOnce (reads : ℕ → Option ℚ) (k : ℕ) (target tolerance : ℚ) :
    Except WriteError (Bool × ℕ) :=
  match reads k with
  | none => .ok (false, k + 1)
  | some current_value =>
    if current_value = 0 then .ok (false, k + 1)
    else
      match reads (k + 1) with
      | none => .error .typeError
      | some w => .ok (decide (|w - target| < tolerance), k + 2)

/-- One full traversal of
`for index, pv in ((index, pv) for index, reached, pv in
zip(count(), within_tolerance, self.pvs) if not reached)`: channels already
within tolerance are skipped; a `TypeError` raised at one channel aborts
before later channels are touched. -/
def pollCycle (tolerance : ℚ) :
    List ((ℕ → Option ℚ) × ℚ) → List Bool → List ℕ →
    Except WriteError (List Bool × List ℕ)
  | ch :: chs, f :: fs, k :: ks =>
    if f then
      match pollCycle tolerance chs fs ks with
      | .error e => .error e
      | .ok (fs', ks') => .ok (true :: fs', k :: ks')
    else
      match pollOnce ch.1 k ch.2 tolerance with
      | .error e => .error e
      | .ok (f', k') =>
        match pollCycle tolerance chs fs ks with
        | .error e => .error e
        | .ok (fs', ks') => .ok (f' :: fs', k' :: ks')
  | _, _, _ => .ok ([], [])

/-- `while not all(within_tolerance) and time.time() - initial_timestamp < timeout:`
— the `all` check runs first; exhausted fuel is the time guard turning false.
Either exit returns the final flags. -/
def writeLoop (tolerance : ℚ) (chans : List ((ℕ → Option ℚ) × ℚ)) :
    ℕ → List Bool → List ℕ → Except WriteError (List Bool)
  | 0, flags, _ => .ok flags
  | f + 1, flags, ks =>
    if flags.all (fun b => b) then .ok flags
    else
      match pollCycle tolerance chans flags ks with
      | .error e => .error e
      | .ok (flags', ks') => writeLoop tolerance chans f flags' ks'

/-- `EpicsWriter.write(values, tolerance, timeout)` over the channels' read
traces (the initial `pv.put(value)` calls are fire-and-forget; their physical
effect is already reflected in the read traces).  All uses in this file pair
equally many channels and target values, matching `zip(self.pvs, values)`. -/
def EpicsWriter.write (pvs : List (ℕ → Option ℚ)) (values : List ℚ)
    (tolerance : ℚ) (fuel : ℕ) : Except WriteError Unit :=
  let chans := pvs.zip values
  match writeLoop tolerance chans fuel (List.replicate chans.length false)
      (List.replicate chans.length 0) with
  | .error e => .error e
  | .ok flags => if flags.all (fun b => b) then .ok () else .error .convergenceTimeout

/-! ## ReadGroupInterface (the SynchronizedReader) -/

/-- A bsread message as consumed by the reader: the global timestamp
(`sec`/`ns` integer components) plus the per-channel sampled values. -/
structure Frame where
  sec : ℤ
  ns : ℤ
  data : String → ℚ

/-- Python `int(x)` on a float: truncation toward zero (`Int.div` of the
reduced numerator by the denominator is exactly T-division). -/
def pyInt (q : ℚ) : ℤ := Int.tdiv q.num q.den

/-- `ReadGroupInterface.is_message_after_timestamp(message, timestamp)`:
`current_epoch = int(timestamp)`;
`current_ns = int(math.modf(timestamp)[0] * 1e9)` (`math.modf(t)[0]` is the
signed fractional part `t - int(t)`); an absent message (receive timeout)
never matches; equal seconds compare nanoseconds with `>=`; otherwise the
message seconds must be strictly larger. -/
def is_message_after_timestamp (message : Option Frame) (timestamp : ℚ) : Bool :=
  match message with
  | none => false
  | some m =>
    let current_epoch : ℤ := pyInt timestamp
    let current_ns : ℤ := pyInt ((timestamp - (current_epoch : ℚ)) * 1000000000)
    if m.sec = current_epoch then decide (current_ns ≤ m.ns)
    else decide (current_epoch < m.sec)

/-- `readTimeout` is the final `Exception("Read timeout exceeded for BS read
stream. ...")`; `emptyCache` is the `ValueError("Message cache is empty, ...")`
of `_read_pvs_from_cache`. -/
inductive ReadError where
  | readTimeout : ReadError
  | emptyCache : ReadError
deriving DecidableEq

/-- `ReadGroupInterface._read_pvs_from_cache(pvs_to_read)`: fails on an empty
cache, otherwise returns the cached frame's value for each requested name. -/
def read_pvs_from_cache (cache : Option Frame) (pvs_to_read : List String) :
    Except ReadError (List ℚ) :=
  match cache with
  | none => .error .emptyCache
  | some fr => .ok (pvs_to_read.map fr.data)

/-- The polling loop of `ReadGroupInterface.read`: `i` counts `receive()`
calls already made (the stream is embedded as the sequence of their results,
`none` being a receive timeout), and the fuel counts the iterations whose
`while time()-read_timestamp < self.default_read_timeout` guard passes.
On a match the message is cached and the primary values are read from the
cache; the `while`'s `else` raises the read-timeout error. -/
def readLoop (stream : ℕ → Option Frame) (properties : List String) (t0 : ℚ) :
    ℕ → ℕ → Except ReadError (List ℚ)
  | _, 0 => .error .readTimeout
  | i, f + 1 =>
    let message := stream i
    if is_message_after_timestamp message t0 then read_pvs_from_cache message properties
    else readLoop stream properties t0 (i + 1) f

/-- `ReadGroupInterface.read()`.  Modelled from the spec: the overall read
timeout (`self.default_read_timeout`) is configuration the core consumes but
does not own — it is never assigned inside `src/` (it is injected by the
scan-driver/configuration code absent from `src/`); the spec's "overall read
timeout" is embedded as `fuel`, the number of receive attempts that start
before that timeout elapses.  `t0` is the `read_timestamp = time()` recorded
at entry. -/
def ReadGroupInterface.read (stream : ℕ → Option Frame) (properties : List String)
    (t0 : ℚ) (fuel : ℕ) : Except ReadError (List ℚ) :=
  readLoop stream properties t0 0 fuel

/-! ## Claim theorems -/

/-- C3: the claim says a step specification whose tag is neither `StepCount`
nor `StepSize` fails with a construction-time `ConstructionError`.  The code's
`else` branch is `pass` under a `TODO: Raise an exception.` comment:
construction completes normally, leaving `n_steps`/`step_size` unassigned, so
the object is constructed but unusable (its generator dies on the missing
attributes, modelled by `Option`).  This theorem evaluates the constructors at
such a step specification: no error is raised at construction time. -/
theorem c3_untagged_steps_construction_silently_passes :
    (LinearPositioner.init [0] [10] .other 1 none).n_steps = none
    ∧ (LinearPositioner.init [0] [10] .other 1 none).step_size = none
    ∧ LinearPositioner.get_generator (LinearPositioner.init [0] [10] .other 1 none) = none
    ∧ (AreaPositioner.init [0, 0] [10, 10] .other 1 none).n_steps = none
    ∧ (AreaPositioner.init [0, 0] [10, 10] .other 1 none).step_size = none
    ∧ ZigZagLinearPositioner.get_generator (LinearPositioner.init [0] [10] .other 1 none)
        = none :=
  ⟨rfl, rfl, rfl, rfl, rfl, rfl⟩

/-- C4: the claim says `write` returns normally whenever every channel's first
post-write read equals its target.  The code's falsy-value guard
`if not current_value: continue` also catches a read of exactly `0`, so a
channel commanded to target `0` whose readback is exactly `0` on every poll is
never marked converged and `write` raises the convergence-timeout `ValueError`
(first conjunct) — contradicting the claim, although for a nonzero target the
claim's behaviour does hold (second conjunct), and the claim's timeout half
also holds: one never-converging channel forces the timeout error even though
the other channel converges on the first poll (third conjunct). -/
theorem c4_write_zero_target_times_out_despite_equal_readback :
    EpicsWriter.write [fun _ => some 0] [0] (1 / 100000) 5 = .error .convergenceTimeout
    ∧ EpicsWriter.write [fun _ => some 5] [5] (1 / 100000) 1 = .ok ()
    ∧ EpicsWriter.write [fun _ => some 5, fun _ => some 100] [5, 0] (1 / 100000) 3
        = .error .convergenceTimeout := by
  refine ⟨rfl, ?_, ?_⟩
  · norm_num [EpicsWriter.write, writeLoop, pollCycle, pollOnce]
  · norm_num [EpicsWriter.write, writeLoop, pollCycle, pollOnce]

/-- C5: the frame-matching predicate, with the reference time split into
truncated integer seconds `S = int(t)` and truncated integer nanoseconds
`N = int((t - S) * 1e9)`, accepts a frame iff `sec > S ∨ (sec = S ∧ ns ≥ N)`;
a frame with `sec < S` never matches, the exact boundary frame `(S, N)`
matches, and an absent frame (receive timeout) never matches. -/
theorem c5_is_message_after_timestamp_boundary (t : ℚ) (sec ns : ℤ) (d : String → ℚ) :
    (is_message_after_timestamp (some ⟨sec, ns, d⟩) t = true ↔
      (pyInt t < sec ∨ (sec = pyInt t ∧ pyInt ((t - (pyInt t : ℚ)) * 1000000000) ≤ ns)))
    ∧ (sec < pyInt t → is_message_after_timestamp (some ⟨sec, ns, d⟩) t = false)
    ∧ is_message_after_timestamp
        (some ⟨pyInt t, pyInt ((t - (pyInt t : ℚ)) * 1000000000), d⟩) t = true
    ∧ is_message_after_timestamp none t = false := by
  refine ⟨?_, ?_, ?_, rfl⟩
  · simp only [is_message_after_timestamp]
    by_cases h : sec = pyInt t
    · simp [h]
    · simp [h, Ne.symm h]
  · intro hlt
    have h : sec ≠ pyInt t := ne_of_lt hlt
    simp [is_message_after_timestamp, h, not_lt.mpr (le_of_lt hlt)]
  · simp [is_message_after_timestamp]

/-- C5 witness: at `t = 3/2` (so `S = 1`, `N = 500000000`) a frame with
`sec = 0 < S` is rejected. -/
theorem c5_witness :
    is_message_after_timestamp (some ⟨0, 999999999, fun _ => 0⟩) (3 / 2) = false :=
  (c5_is_message_after_timestamp_boundary (3 / 2) 0 999999999 (fun _ => 0)).2.1
    (by norm_num [pyInt]; decide)

/-- If every receive attempt the timeout window admits yields a non-matching
result, the polling loop of `read` ends in the read-timeout error. -/
theorem readLoop_all_unmatched (stream : ℕ → Option Frame) (properties : List String)
    (t0 : ℚ) :
    ∀ (f i : ℕ), (∀ j, j < f → is_message_after_timestamp (stream (i + j)) t0 = false) →
    readLoop stream properties t0 i f = .error .readTimeout := by
  intro f
  induction f with
  | zero => intro i _; rfl
  | succ f ih =>
    intro i h
    have h0 : is_message_after_timestamp (stream i) t0 = false := by
      simpa using h 0 (Nat.succ_pos f)
    simp only [readLoop, h0, Bool.false_eq_true, if_false]
    exact ih (i + 1) (fun j hj => by
      have := h (j + 1) (by omega)
      rwa [show i + (j + 1) = i + 1 + j by omega] at this)

/-- C2: for every call to `read` in which no received frame matches the
reference timestamp before the overall read timeout elapses (no attempt that
starts inside the timeout window matches), `read` fails with the read-timeout
error — and with no other kind of failure, since the result is exactly
`Except.error ReadError.readTimeout`. -/
theorem c2_read_timeout_when_no_match (stream : ℕ → Option Frame)
    (properties : List String) (t0 : ℚ) (fuel : ℕ)
    (h : ∀ i, i < fuel → is_message_after_timestamp (stream i) t0 = false) :
    ReadGroupInterface.read stream properties t0 fuel = .error .readTimeout :=
  readLoop_all_unmatched stream properties t0 fuel 0 (fun j hj => by
    simpa using h j hj)

/-- C2 witness: a stream whose every receive attempt times out (yields no
frame) makes `read` fail with the read-timeout error. -/
theorem c2_witness :
    ReadGroupInterface.read (fun _ => none) ["a"] 0 3 = .error .readTimeout :=
  c2_read_timeout_when_no_match (fun _ => none) ["a"] 0 3 (fun _ _ => rfl)

/-- A channel whose every poll reads exactly `0` keeps its convergence flag
`false` through any number of polling cycles (the falsy-value `continue`). -/
theorem writeLoop_const_zero (tolerance target : ℚ) :
    ∀ (fuel k : ℕ),
    writeLoop tolerance [(fun _ => some 0, target)] fuel [false] [k] = .ok [false] := by
  intro fuel
  induction fuel with
  | zero => intro k; rfl
  | succ f ih =>
    intro k
    simp only [writeLoop, List.all_cons, List.all_nil, Bool.and_true,
      Bool.false_eq_true, if_false, pollCycle, pollOnce]
    simpa using ih (k + 1)

/-- C9: a polled read of exactly `0` is treated as having yielded no value —
the channel is not marked converged in that cycle (third conjunct) — and
consequently a channel commanded to target `0` whose readback is exactly `0`
on every poll makes `write` fail with the convergence-timeout error for every
timeout budget (first conjunct), even though the tolerance condition
`abs(current - target) < tolerance` holds at every poll (second conjunct). -/
theorem c9_zero_readback_never_converges (tolerance : ℚ) (htol : 0 < tolerance)
    (fuel : ℕ) :
    EpicsWriter.write [fun _ => some 0] [0] tolerance fuel = .error .convergenceTimeout
    ∧ |(0 : ℚ) - 0| < tolerance
    ∧ (∀ (reads : ℕ → Option ℚ) (k : ℕ) (target : ℚ), reads k = some 0 →
        pollOnce reads k target tolerance = .ok (false, k + 1)) := by
  refine ⟨?_, by simpa using htol, ?_⟩
  · simp only [EpicsWriter.write, List.zip_cons_cons, List.zip_nil_right,
      List.length_cons, List.length_nil, List.replicate, writeLoop_const_zero]
    rfl
  · intro reads k target hr
    simp [pollOnce, hr]

/-- C9 witness: concrete timeout budget and tolerance. -/
theorem c9_witness :
    EpicsWriter.write [fun _ => some 0] [0] 1 3 = .error .convergenceTimeout :=
  (c9_zero_readback_never_converges 1 (by norm_num) 3).1

/-- C10: the value compared against the tolerance comes from a second,
independent `pv.get()` call (second conjunct: with both reads available, the
flag is decided by the *second* read `w`, the cursor advancing by two); if the
second read yields `None` while the first yielded a truthy value, the
subtraction `pv.get() - values[index]` is applied to `None` and `write` aborts
with a `TypeError` instead of treating the cycle as not-yet-converged (first
conjunct). -/
theorem c10_second_read_type_error (reads : ℕ → Option ℚ) (v : ℚ)
    (h0 : reads 0 = some v) (hv : v ≠ 0) (h1 : reads 1 = none) :
    (∀ (target tolerance : ℚ) (f : ℕ),
      EpicsWriter.write [reads] [target] tolerance (f + 1) = .error .typeError)
    ∧ (∀ (s : ℕ → Option ℚ) (k : ℕ) (target tolerance u w : ℚ),
        s k = some u → u ≠ 0 → s (k + 1) = some w →
        pollOnce s k target tolerance = .ok (decide (|w - target| < tolerance), k + 2)) := by
  constructor
  · intro target tolerance f
    simp [EpicsWriter.write, writeLoop, pollCycle, pollOnce, h0, hv, h1]
  · intro s k target tolerance u w hk hu hk1
    simp [pollOnce, hk, hu, hk1]

/-- C10 witness: a channel whose first read is `1` and whose second read
yields nothing aborts `write` with the type error. -/
theorem c10_witness :
    EpicsWriter.write [fun n => if n = 0 then some 1 else none] [0] 1 1
      = .error .typeError :=
  (c10_second_read_type_error (fun n => if n = 0 then some 1 else none) 1
    rfl (by norm_num) rfl).1 0 1 0

/-- C6: `ZigZagVectorPositioner` over 3 explicit waypoints with 2 passes
yields exactly the 5 positions in index order `0,1,2,1,0` — the shared
endpoint between the two passes emitted only once (first conjunct) — and in
general the emitted count is `n + (passes-1) * (n-1)` (second conjunct). -/
theorem c6_zigzag_vector_pingpong :
    (∀ a b c : List ℚ, ZigZagVectorPositioner.gen [a, b, c] 2 = [a, b, c, b, a])
    ∧ (∀ (positions : List (List ℚ)) (p : ℕ), 1 ≤ p →
        (ZigZagVectorPositioner.gen positions p).length =
          positions.length + (p - 1) * (positions.length - 1)) := by
  constructor
  · intro a b c
    norm_num [ZigZagVectorPositioner.gen, ZigZagVectorPositioner.nIndexes, zzIndexes]
    rfl
  · intro positions p hp
    obtain ⟨k, rfl⟩ : ∃ k, p = k + 1 := ⟨p - 1, by omega⟩
    simp only [ZigZagVectorPositioner.gen, ZigZagVectorPositioner.nIndexes,
      List.length_map, List.length_range, Nat.add_sub_cancel]
    cases positions with
    | nil => simp
    | cons a rest =>
      have h1 : (((a :: rest).length : ℤ) + (((k + 1 : ℕ) : ℤ) - 1) * (((a :: rest).length : ℤ) - 1))
          = (((a :: rest).length + k * rest.length : ℕ) : ℤ) := by
        push_cast [List.length_cons]
        ring
      rw [h1, Int.toNat_natCast]
      simp

/-- C6 witness: the length formula at 3 waypoints and 2 passes. -/
theorem c6_witness :
    (ZigZagVectorPositioner.gen [[0], [1], [2]] 2).length = 3 + (2 - 1) * (3 - 1) :=
  (c6_zigzag_vector_pingpong.2 [[0], [1], [2]] 2 (by norm_num))

/-- Each inner sweep of `ZigZagLinearPositioner.get_generator` emits exactly
`n_steps` positions. -/
theorem zzlSteps_length (ss : List ℚ) (direction : ℚ) :
    ∀ (k : ℕ) (pos : List ℚ), (zzlSteps ss direction k pos).length = k := by
  intro k
  induction k with
  | zero => intro pos; rfl
  | succ k ih => intro pos; simp [zzlSteps, ih]

/-- The pass loop of `ZigZagLinearPositioner.get_generator` emits exactly
`n_steps` positions per remaining pass. -/
theorem zzlGo_length (ss : List ℚ) (n : ℕ) :
    ∀ (r pn : ℕ) (pos : List ℚ), (ZigZagLinearPositioner.go ss n pn r pos).length = r * n := by
  intro r
  induction r with
  | zero => intro pn pos; simp [ZigZagLinearPositioner.go]
  | succ r ih =>
    intro pn pos
    simp [ZigZagLinearPositioner.go, zzlSteps_length, ih]
    ring

/-- C7: `ZigZagLinearPositioner` with `start=[0]`, `end=[10]`, `StepCount 5`
and 2 passes yields exactly the 11 vectors
`[0],[2],[4],[6],[8],[10],[8],[6],[4],[2],[0]` — the second pass stepping
backward from where the first ended, not restarting (first conjunct); in
general the start vector is emitted exactly once at the very beginning
(second conjunct) and the concatenated passes contribute `passes * n_steps`
further vectors (third conjunct). -/
theorem c7_zigzag_linear_concatenated_passes :
    ZigZagLinearPositioner.get_generator (LinearPositioner.init [0] [10] (.count [5]) 2 none)
      = some [[0], [2], [4], [6], [8], [10], [8], [6], [4], [2], [0]]
    ∧ (∀ (s ss : List ℚ) (n p : ℕ), (ZigZagLinearPositioner.gen s ss n p).head? = some s)
    ∧ (∀ (s ss : List ℚ) (n p : ℕ),
        (ZigZagLinearPositioner.gen s ss n p).length = 1 + p * n) := by
  refine ⟨?_, fun s ss n p => rfl, fun s ss n p => ?_⟩
  · norm_num [LinearPositioner.init, applyOffsets, zip3With,
      ZigZagLinearPositioner.get_generator, ZigZagLinearPositioner.gen,
      ZigZagLinearPositioner.go, zzlSteps]
  · simp [ZigZagLinearPositioner.gen, zzlGo_length]
    omega

/-- `scan_axis` preserves the length of the `directions` list. -/
theorem zzScanAxis_dir_length (nst : List ℕ) (ss : List ℚ) :
    ∀ (f axis : ℕ) (pos : List ℚ) (dir : List ℤ),
    ((zzScanAxis nst ss f axis pos dir).2.2).length = dir.length := by
  intro f
  induction f with
  | zero => intro axis pos dir; rfl
  | succ f ih =>
    intro axis pos dir
    simp only [zzScanAxis, List.length_set]
    exact loopN_inv _ (fun st : List (List ℚ) × List ℚ × List ℤ => st.2.2.length = dir.length)
      (fun st hst => by simp only [zzStep]; rw [ih]; exact hst)
      _ _ (ih _ _ _)

/-- `scan_axis(axis)` touches no direction flag of an axis below `axis`. -/
theorem zzScanAxis_dir_lower (nst : List ℕ) (ss : List ℚ) (d : ℤ) :
    ∀ (f axis : ℕ) (pos : List ℚ) (dir : List ℤ) (j : ℕ), j < axis →
    ((zzScanAxis nst ss f axis pos dir).2.2).getD j d = dir.getD j d := by
  intro f
  induction f with
  | zero => intro axis pos dir j _; rfl
  | succ f ih =>
    intro axis pos dir j hj
    simp only [zzScanAxis]
    rw [getD_set_ne _ _ _ _ _ (by omega)]
    exact loopN_inv _
      (fun st : List (List ℚ) × List ℚ × List ℤ => st.2.2.getD j d = dir.getD j d)
      (fun st hst => by simp only [zzStep]; rw [ih _ _ _ j (by omega)]; exact hst)
      _ _ (ih _ _ _ j (by omega))

/-- Every completed invocation of `scan_axis(axis)` — i.e. every completion of
that axis's `n_steps[axis]` inner loop — inverts `directions[axis]`. -/
theorem zzScanAxis_dir_inverts (nst : List ℕ) (ss : List ℚ)
    (f axis : ℕ) (pos : List ℚ) (dir : List ℤ) (h : axis < dir.length) :
    ((zzScanAxis nst ss (f + 1) axis pos dir).2.2).getD axis 1 = dir.getD axis 1 * -1 := by
  simp only [zzScanAxis]
  have key := loopN_inv (zzStep ss axis (zzScanAxis nst ss f (axis + 1)))
    (fun st : List (List ℚ) × List ℚ × List ℤ =>
      st.2.2.length = dir.length ∧ st.2.2.getD axis 1 = dir.getD axis 1)
    (fun st hst => by
      simp only [zzStep]
      constructor
      · rw [zzScanAxis_dir_length]; exact hst.1
      · rw [zzScanAxis_dir_lower _ _ _ _ _ _ _ axis (by omega)]; exact hst.2)
    (nst.getD axis 0) (zzScanAxis nst ss f (axis + 1) pos dir)
    ⟨zzScanAxis_dir_length nst ss f (axis + 1) pos dir,
      zzScanAxis_dir_lower nst ss 1 f (axis + 1) pos dir axis (by omega)⟩
  rw [getD_set_self _ _ _ _ (by rw [key.1]; exact h), key.2]

/-- Because `directions` (and `positions`) are re-initialised at the top of
every pass, the whole traversal is `passes` identical copies of the
single-pass output. -/
theorem zigZagAreaGen_replicate (start : List ℚ) (nst : List ℕ) (ss : List ℚ) :
    ∀ p : ℕ, ZigZagAreaPositioner.gen start nst ss p =
      (List.replicate p (ZigZagAreaPositioner.onePass start nst ss).1).flatten := by
  intro p
  induction p with
  | zero => rfl
  | succ p ih => simp [ZigZagAreaPositioner.gen, ih, List.replicate_succ]

/-- C1 counterexample: a concrete multi-pass `ZigZagAreaPositioner` scan
(one axis, `n_steps = [1]`, `step_size = [1]`, `start = [0]`, 2 passes) in
which the direction state the second pass starts with — `[1] * n_axis`, as
the generator (re)binds it — differs from the state the first pass ended
with, `[-1]`; consequently the source traversal also differs from the
spec-modelled persistent-direction traversal on this scan. -/
theorem c1_counterexample_direction_reset_per_pass :
    (ZigZagAreaPositioner.onePass [0] [1] [1]).2.2 = [-1]
    ∧ List.replicate ([(0 : ℚ)] : List ℚ).length (1 : ℤ) = [1]
    ∧ (ZigZagAreaPositioner.onePass [0] [1] [1]).2.2
        ≠ List.replicate ([(0 : ℚ)] : List ℚ).length (1 : ℤ)
    ∧ ZigZagAreaPositioner.gen [0] [1] [1] 2 = [[0], [1], [0], [1]]
    ∧ ZigZagAreaPositioner.genSpecPersist [0] [1] [1] 2 = [[0], [1], [0], [-1]]
    ∧ ZigZagAreaPositioner.gen [0] [1] [1] 2
        ≠ ZigZagAreaPositioner.genSpecPersist [0] [1] [1] 2 := by
  refine ⟨rfl, rfl, by decide, ?_, ?_, ?_⟩
  · norm_num [ZigZagAreaPositioner.gen, ZigZagAreaPositioner.onePass, zzScanAxis, zzStep,
      loopN, List.replicate]
  · norm_num [ZigZagAreaPositioner.genSpecPersist, zzAreaPersistAux, zzScanAxis, zzStep,
      loopN, List.replicate]
  · norm_num [ZigZagAreaPositioner.gen, ZigZagAreaPositioner.genSpecPersist,
      ZigZagAreaPositioner.onePass, zzAreaPersistAux, zzScanAxis, zzStep,
      loopN, List.replicate]

/-- C1 (amended): each axis's direction flag inverts every time that axis
completes its `n_steps[axis]` inner loop *within a pass* (first conjunct),
but the flags do **not** persist across passes: they are re-initialised to
forward (`[1] * n_axis`) at the start of every pass, so the traversal is
`passes` identical copies of the single-pass output (second conjunct). -/
theorem c1_zigzag_area_direction_per_pass :
    (∀ (nst : List ℕ) (ss : List ℚ) (f axis : ℕ) (pos : List ℚ) (dir : List ℤ),
      axis < dir.length →
      ((zzScanAxis nst ss (f + 1) axis pos dir).2.2).getD axis 1 = dir.getD axis 1 * -1)
    ∧ (∀ (start : List ℚ) (nst : List ℕ) (ss : List ℚ) (p : ℕ),
        ZigZagAreaPositioner.gen start nst ss p =
          (List.replicate p (ZigZagAreaPositioner.onePass start nst ss).1).flatten) :=
  ⟨fun nst ss f axis pos dir h => zzScanAxis_dir_inverts nst ss f axis pos dir h,
    fun start nst ss p => zigZagAreaGen_replicate start nst ss p⟩

/-- C1 witness: one completed inner loop on the single axis of a concrete
scan flips that axis's direction flag from `1` to `-1`. -/
theorem c1_witness :
    ((zzScanAxis [1] [1] 1 0 [0] [1]).2.2).getD 0 1 = ([1] : List ℤ).getD 0 1 * -1 :=
  c1_zigzag_area_direction_per_pass.1 [1] [1] 0 0 [0] [1] (by decide)

/-- With at least one waypoint, the first emitted position of
`ZigZagVectorPositioner.get_generator` is the first waypoint: the index
stream starts at `0` and `n_indexes ≥ 1`. -/
theorem zzVectorGen_head_cons (a : List ℚ) (rest : List (List ℚ)) (p : ℕ) (hp : 1 ≤ p) :
    (ZigZagVectorPositioner.gen (a :: rest) p).head? = some a := by
  have hq : (0 : ℤ) ≤ ((p : ℤ) - 1) * (((a :: rest).length : ℤ) - 1) := by
    apply mul_nonneg
    · omega
    · simp
  have h2 : (1 : ℤ) ≤ ((a :: rest).length : ℤ)
      + ((p : ℤ) - 1) * (((a :: rest).length : ℤ) - 1) := by
    have h3 : (1 : ℤ) ≤ ((a :: rest).length : ℤ) := by
      simp [List.length_cons]
    linarith
  have htot : 0 < ZigZagVectorPositioner.nIndexes (a :: rest).length p := by
    apply Nat.pos_of_ne_zero
    intro h0
    rw [ZigZagVectorPositioner.nIndexes, Int.toNat_eq_zero] at h0
    linarith
  obtain ⟨t, ht⟩ := Nat.exists_eq_succ_of_ne_zero (Nat.pos_iff_ne_zero.mp htot)
  simp only [ZigZagVectorPositioner.gen]
  rw [ht, List.range_succ_eq_map]
  simp [zzIndexes, List.range_succ_eq_map]

/-- C8: obtaining the position sequence is restartable and deterministic — in
this embedding each `get_generator` call is one evaluation of a pure function
of the constructed positioner's (never-mutated) configuration, so any two
traversals are definitionally the same finite list — and every traversal
begins fresh: for each of the seven positioner variants, the first emitted
vector is the start position (for the vector variants, the first waypoint),
independent of any previous traversal. -/
theorem c8_generators_fresh_start :
    (∀ (s ss : List ℚ) (n p : ℕ), 1 ≤ p → (LinearPositioner.gen s ss n p).head? = some s)
    ∧ (∀ (s ss : List ℚ) (n p : ℕ), (ZigZagLinearPositioner.gen s ss n p).head? = some s)
    ∧ (∀ (s : List ℚ) (nst : List ℕ) (ss : List ℚ) (p : ℕ), 1 ≤ p →
        (AreaPositioner.gen s nst ss p).head? = some s)
    ∧ (∀ (s : List ℚ) (nst : List ℕ) (ss : List ℚ) (p : ℕ), 1 ≤ p →
        (ZigZagAreaPositioner.gen s nst ss p).head? = some s)
    ∧ (∀ (s : List (List ℚ)) (nst : List (List ℕ)) (ss : List (List ℚ)) (p : ℕ), 1 ≤ p →
        (MultiAreaPositioner.gen s nst ss p).head? = some s)
    ∧ (∀ (positions : List (List ℚ)) (v : List ℚ) (p : ℕ), 1 ≤ p →
        positions.head? = some v → (VectorPositioner.gen positions p).head? = some v)
    ∧ (∀ (positions : List (List ℚ)) (v : List ℚ) (p : ℕ), 1 ≤ p →
        positions.head? = some v → (ZigZagVectorPositioner.gen positions p).head? = some v) := by
  refine ⟨?_, fun s ss n p => rfl, ?_, ?_, ?_, ?_, ?_⟩
  · intro s ss n p hp
    obtain ⟨q, rfl⟩ : ∃ q, p = q + 1 := ⟨p - 1, by omega⟩
    simp [LinearPositioner.gen]
  · intro s nst ss p hp
    obtain ⟨q, rfl⟩ : ∃ q, p = q + 1 := ⟨p - 1, by omega⟩
    simp [AreaPositioner.gen, AreaPositioner.onePass]
  · intro s nst ss p hp
    obtain ⟨q, rfl⟩ : ∃ q, p = q + 1 := ⟨p - 1, by omega⟩
    simp [ZigZagAreaPositioner.gen, ZigZagAreaPositioner.onePass]
  · intro s nst ss p hp
    obtain ⟨q, rfl⟩ : ∃ q, p = q + 1 := ⟨p - 1, by omega⟩
    simp [MultiAreaPositioner.gen, MultiAreaPositioner.onePass]
  · intro positions v p hp hv
    obtain ⟨q, rfl⟩ : ∃ q, p = q + 1 := ⟨p - 1, by omega⟩
    cases positions with
    | nil => simp at hv
    | cons a rest =>
      simp only [List.head?_cons, Option.some.injEq] at hv
      simp [VectorPositioner.gen, hv]
  · intro positions v p hp hv
    cases positions with
    | nil => simp at hv
    | cons a rest =>
      simp only [List.head?_cons, Option.some.injEq] at hv
      rw [zzVectorGen_head_cons a rest p hp, hv]

/-- C8 witness: fresh-start instances of the variants at concrete
configurations. -/
theorem c8_witness :
    (LinearPositioner.gen [0] [2] 5 2).head? = some [0]
    ∧ (AreaPositioner.gen [0, 0] [1, 1] [1, 1] 1).head? = some [0, 0]
    ∧ (ZigZagAreaPositioner.gen [0, 0] [1, 1] [1, 1] 1).head? = some [0, 0]
    ∧ (MultiAreaPositioner.gen [[0]] [[1]] [[1]] 1).head? = some [[0]]
    ∧ (VectorPositioner.gen [[3], [4]] 1).head? = some [3]
    ∧ (ZigZagVectorPositioner.gen [[3], [4]] 2).head? = some [3] :=
  ⟨c8_generators_fresh_start.1 [0] [2] 5 2 (by norm_num),
    c8_generators_fresh_start.2.2.1 [0, 0] [1, 1] [1, 1] 1 (by norm_num),
    c8_generators_fresh_start.2.2.2.1 [0, 0] [1, 1] [1, 1] 1 (by norm_num),
    c8_generators_fresh_start.2.2.2.2.1 [[0]] [[1]] [[1]] 1 (by norm_num),
    c8_generators_fresh_start.2.2.2.2.2.1 [[3], [4]] [3] 1 (by norm_num) rfl,
    c8_generators_fresh_start.2.2.2.2.2.2 [[3], [4]] [3] 2 (by norm_num) rfl⟩
